import Mathlib

/-!
Verification of the race-control offline-first application.

The definitions below are a shallow embedding of the repository's source:
`server.js` (Express + sqlite handlers), `public/timer.js` (RaceTimer and
OfflineStorage) and `public/sw.js` (the service-worker cache manager).
JavaScript objects become Lean structures, nullable values become `Option`,
JavaScript truthiness on numbers (`0`, `null`, `undefined` are falsy) is
modelled explicitly, and the sqlite connection's transaction state is made
explicit so that commit/rollback behaviour is observable.
-/

namespace RaceControl

/-! ## Server data model (`server.js`, `db/setup` script) -/

/-- Race lifecycle status, the values written by the server handlers
(`pending` on creation, `active` from the start handler, `completed`
from the end handler). -/
inductive Status
  | pending
  | active
  | completed
deriving DecidableEq

/-- Numeric rank of a status along the documented lifecycle order
pending → active → completed. -/
def statusRank : Status → Nat
  | .pending => 0
  | .active => 1
  | .completed => 2

/-- A row of the `races` table: id, name, date, nullable startTime
(epoch ms), status. -/
structure RaceRow where
  id : Nat
  name : String
  date : String
  startTime : Option Int
  status : Status
deriving DecidableEq

/-- A row of the `results` table (the generated `id` column is omitted:
no handler's observable behaviour depends on it). -/
structure ResultRow where
  raceId : Nat
  runnerNumber : Int
  finishTime : Int
  uploadedBy : Option String
  uploadedAt : Int
deriving DecidableEq

/-- The server's sqlite state as seen through its single shared
connection: committed rows of `results`, the `races` table, and the rows
inserted inside a transaction that is still open on that connection
(`BEGIN TRANSACTION` issued, neither `COMMIT` nor `ROLLBACK` yet).
Statements on the same connection see the uncommitted rows, so readers
served by `server.js` observe `committed ++ pendingTxn`. -/
structure ServerDb where
  races : List RaceRow
  committed : List ResultRow
  pendingTxn : Option (List ResultRow)
deriving DecidableEq

/-- Rows visible to a query issued on the server's shared connection:
committed rows plus any rows of the connection's open transaction. -/
def visibleResults (db : ServerDb) : List ResultRow :=
  db.committed ++ (db.pendingTxn.getD [])

/-! ## `PUT /api/races/:id/start` and `PUT /api/races/:id/end` -/

/-- A lifecycle request addressed to one race: the start handler
(carrying the server-side `Date.now()`), or the end handler. Requests
addressed to other races leave this race's row unchanged (the SQL
`WHERE id = ?` clause), so a race's evolution is fully described by the
requests addressed to it. -/
inductive RaceOp
  | startReq (now : Int)
  | endReq
deriving DecidableEq

/-- Effect of one lifecycle request on the race's row, read off the two
`UPDATE` statements in `server.js`: the start handler unconditionally
sets `startTime` and `status = 'active'`; the end handler
unconditionally sets `status = 'completed'`. Neither inspects the
current status. -/
def applyReq : RaceOp → RaceRow → RaceRow
  | .startReq now, r => { r with startTime := some now, status := .active }
  | .endReq, r => { r with status := .completed }

/-- The discipline the client UI enforces through button state: the
start endpoint is only invoked while the race is pending (the end
endpoint is unconstrained). The server itself does not check this. -/
def reqGuard : RaceOp → RaceRow → Bool
  | .startReq _, r => r.status == .pending
  | .endReq, _ => true

/-- A request sequence is guarded when every request satisfies
`reqGuard` in the state where it is issued. -/
def guarded : RaceRow → List RaceOp → Bool
  | _, [] => true
  | r, op :: rest => reqGuard op r && guarded (applyReq op r) rest

/-- The sequence of row states observed while a request sequence is
processed, starting from the initial row. -/
def raceTrace (r : RaceRow) : List RaceOp → List RaceRow
  | [] => [r]
  | op :: rest => r :: raceTrace (applyReq op r) rest

/-- Number of start requests in a sequence; each one is a write to
`startTime`. -/
def countStarts : List RaceOp → Nat
  | [] => 0
  | .startReq _ :: rest => countStarts rest + 1
  | .endReq :: rest => countStarts rest

/-- Relation between consecutive observed row states: the status rank
never decreases, and any change of `startTime` happens at a
pending-to-active transition. -/
def monoStep (a b : RaceRow) : Prop :=
  statusRank a.status ≤ statusRank b.status ∧
  (a.startTime ≠ b.startTime → a.status = .pending ∧ b.status = .active)

/-! ## `POST /api/races/:id/results` -/

/-- One entry of the submitted `results` array; a missing
`runnerNumber` or `finishTime` key is `none`. -/
structure Entry where
  runnerNumber : Option Int
  finishTime : Option Int
deriving DecidableEq

/-- JavaScript truthiness of a possibly-missing number: `undefined`,
`null` and `0` are falsy. -/
def truthyInt : Option Int → Bool
  | none => false
  | some v => v != 0

/-- The handler's per-entry validation `!runnerNumber || !finishTime`,
negated: the entry passes when both fields are truthy. -/
def validEntry (e : Entry) : Bool :=
  truthyInt e.runnerNumber && truthyInt e.finishTime

/-- The row the handler's `INSERT` produces for one entry (`getD 0` is
never reached on an entry that passed validation). -/
def entryRow (raceId : Nat) (deviceId : Option String) (uploadedAt : Int)
    (e : Entry) : ResultRow :=
  { raceId := raceId,
    runnerNumber := e.runnerNumber.getD 0,
    finishTime := e.finishTime.getD 0,
    uploadedBy := deviceId,
    uploadedAt := uploadedAt }

/-- The handler's `forEach` over the submitted entries with its
`hasError` flag: entries are validated in order; each valid entry's
`INSERT` is queued (and, under `db.serialize`, executed inside the open
transaction); at the first invalid entry the handler responds 400 and
the remaining entries are skipped. Returns the rows inserted into the
open transaction and the final `hasError` flag. -/
def insertLoop (raceId : Nat) (deviceId : Option String) (uploadedAt : Int) :
    List Entry → List ResultRow → List ResultRow × Bool
  | [], pending => (pending, false)
  | e :: rest, pending =>
    if validEntry e then
      insertLoop raceId deviceId uploadedAt rest
        (pending ++ [entryRow raceId deviceId uploadedAt e])
    else
      (pending, true)

/-- The `POST /api/races/:id/results` handler. `body = none` models a
missing or non-array `results` field (rejected with 400 before any
database statement). Otherwise the handler issues `BEGIN TRANSACTION`
and runs `insertLoop`. If validation failed mid-batch, the handler has
already responded 400 and — as in the source — issues neither `COMMIT`
nor `ROLLBACK`: the connection is left with an open transaction holding
the rows inserted before the invalid entry. If every entry passed, the
queued `COMMIT` runs and the handler responds 200. Defined for a
connection with no dangling transaction (a dangling one would make the
real `BEGIN` itself fail). -/
def postResults (raceId : Nat) (body : Option (List Entry))
    (deviceId : Option String) (now : Int) (db : ServerDb) :
    Nat × ServerDb :=
  match body with
  | none => (400, db)
  | some results =>
    let r := insertLoop raceId deviceId now results []
    if r.2 then
      (400, { db with pendingTxn := some r.1 })
    else
      (200, { db with committed := db.committed ++ r.1, pendingTxn := none })

/-! ## `GET /api/races/:id/results` -/

/-- One processed row of the results response (the row `id` is omitted,
as in `ResultRow`). -/
structure ProcessedResult where
  runnerNumber : Int
  finishTime : Int
  raceTime : Option Int
  uploadedBy : Option String
  uploadedAt : Int
deriving DecidableEq

/-- The handler's scalar subquery
`(SELECT startTime FROM races WHERE id = ?)`: the startTime of the race
row with the given id, `none` when the race row is absent or its
startTime is NULL. -/
def raceStartTimeOf (raceId : Nat) (db : ServerDb) : Option Int :=
  (db.races.find? (fun r => r.id == raceId)).bind (fun r => r.startTime)

/-- Stable insertion of a result row into a list sorted by ascending
finishTime, modelling `ORDER BY r.finishTime ASC`. -/
def insertByFinish (row : ResultRow) : List ResultRow → List ResultRow
  | [] => [row]
  | x :: xs =>
    if row.finishTime < x.finishTime then row :: x :: xs
    else x :: insertByFinish row xs

/-- Sort result rows by ascending finishTime. -/
def sortByFinish : List ResultRow → List ResultRow
  | [] => []
  | x :: xs => insertByFinish x (sortByFinish xs)

/-- The `GET /api/races/:id/results` handler: select the rows visible on
the connection with the requested raceId, order them by finishTime, and
map each to a processed result whose `raceTime` is
`finishTime - raceStartTime` when `row.raceStartTime` is truthy and
`null` otherwise. The handler has no 404 path: it always responds 200
with the (possibly empty) list. -/
def getResults (raceId : Nat) (db : ServerDb) :
    Nat × List ProcessedResult :=
  let raceStartTime := raceStartTimeOf raceId db
  let rows := sortByFinish ((visibleResults db).filter (fun r => r.raceId == raceId))
  (200, rows.map (fun row =>
    { runnerNumber := row.runnerNumber,
      finishTime := row.finishTime,
      raceTime :=
        match raceStartTime with
        | some t => if t != 0 then some (row.finishTime - t) else none
        | none => none,
      uploadedBy := row.uploadedBy,
      uploadedAt := row.uploadedAt }))

/-! ## Timer engine (`public/timer.js`, class `RaceTimer`) -/

/-- The mutable fields of a `RaceTimer` instance: nullable `startTime`,
the `isRunning` flag, and whether the 100 ms display interval is
currently scheduled (`timerInterval`). -/
structure TimerState where
  startTime : Option Int
  isRunning : Bool
  intervalActive : Bool
deriving DecidableEq

namespace RaceTimer

/-- `RaceTimer.start(startTime = null)`: when already running, return
the existing `startTime` with no state change; otherwise set
`startTime = startTime || Date.now()` (a `0` or absent argument is
falsy, so the wall clock `now` is used), mark the timer running,
schedule the display interval, and return the new start time. -/
def start (now : Int) (argStartTime : Option Int) (s : TimerState) :
    Option Int × TimerState :=
  if s.isRunning then (s.startTime, s)
  else
    let v : Int :=
      match argStartTime with
      | some t => if t != 0 then t else now
      | none => now
    (some v, { startTime := some v, isRunning := true, intervalActive := true })

/-- `RaceTimer.stop()`: no-op unless running; clears the display
interval and the running flag, keeps `startTime`. -/
def stop (s : TimerState) : TimerState :=
  if !s.isRunning then s
  else { s with isRunning := false, intervalActive := false }

/-- `RaceTimer.reset()`: stop, then clear `startTime`. -/
def reset (s : TimerState) : TimerState :=
  { stop s with startTime := none }

end RaceTimer

/-! ## Local result queue (`public/timer.js`, class `OfflineStorage`) -/

/-- One locally recorded finish, as pushed by `recordFinish` through
`offlineStorage.storeResult({raceId, runnerNumber, finishTime})`. -/
structure StoredResult where
  raceId : Nat
  runnerNumber : Int
  finishTime : Int
deriving DecidableEq

/-- The persisted localStorage blob under `race-control-data`:
`{ raceId, results: [...] }`. An absent blob is `none` at the
`Option LocalQueue` use sites. -/
structure LocalQueue where
  raceId : Nat
  results : List StoredResult
deriving DecidableEq

/-- `OfflineStorage.storeResult(result)`: read the stored blob (or start
a fresh one for `result.raceId`); if the stored blob is for a different
raceId, replace it with a fresh empty one for `result.raceId`; push the
result and persist. -/
def storeResult (result : StoredResult) (stored : Option LocalQueue) :
    Option LocalQueue :=
  let data :=
    match stored with
    | none => ({ raceId := result.raceId, results := [] } : LocalQueue)
    | some d => d
  let data :=
    if data.raceId != result.raceId then
      ({ raceId := result.raceId, results := [] } : LocalQueue)
    else data
  some { data with results := data.results ++ [result] }

/-- `OfflineStorage.clearResults()`: remove the persisted blob. -/
def clearResults (_ : Option LocalQueue) : Option LocalQueue := none

/-- The emptiness test at the top of `syncResults`:
`!data || !data.results || data.results.length === 0`. -/
def queueEmpty : Option LocalQueue → Bool
  | none => true
  | some d => d.results.isEmpty

/-- How one queued result appears in the POST body: the upload sends the
stored objects, and the server destructures `runnerNumber` and
`finishTime` from each. -/
def entryOf (r : StoredResult) : Entry :=
  { runnerNumber := some r.runnerNumber, finishTime := some r.finishTime }

/-- The `results` row the server commits for one queued result when the
sync upload succeeds. -/
def storedRow (raceId : Nat) (deviceId : String) (uploadedAt : Int)
    (r : StoredResult) : ResultRow :=
  { raceId := raceId,
    runnerNumber := r.runnerNumber,
    finishTime := r.finishTime,
    uploadedBy := some deviceId,
    uploadedAt := uploadedAt }

/-- The distinct ways a `syncResults()` call can finish, one per branch
of the source. The code signals them through its return value and a
user notification (see `notificationOf`); the spec's error taxonomy
names the first two `OfflineError` and `EmptyBatchError`. -/
inductive SyncOutcome
  | offlineFailure
  | emptyFailure
  | transportFailure
  | httpFailure
  | syncSuccess
deriving DecidableEq

/-- The notification text each branch of `syncResults` shows, tying each
`SyncOutcome` constructor to an observable behaviour of the source. -/
def notificationOf : SyncOutcome → String
  | .offlineFailure => "Cannot sync while offline"
  | .emptyFailure => "No data to synchronize"
  | .transportFailure => "Failed to synchronize results"
  | .httpFailure => "Failed to synchronize results"
  | .syncSuccess => "Results synchronized successfully"

/-- The part of `syncResults` that runs before the `await fetch`:
either an early failure (offline, or nothing queued — no network call
is issued), or the request it is about to send, carrying the whole
queued batch. -/
inductive Phase1Out
  | fail (o : SyncOutcome)
  | request (raceId : Nat) (entries : List Entry)
deriving DecidableEq

/-- Pre-`fetch` phase of `syncResults()`: check `this.isOnline`, read
the stored blob, fail on an empty queue, otherwise build the POST to
`/api/races/{data.raceId}/results` with body
`{ results: data.results, deviceId }`. -/
def syncPhase1 (isOnline : Bool) (queue : Option LocalQueue) : Phase1Out :=
  if !isOnline then .fail .offlineFailure
  else
    match queue with
    | none => .fail .emptyFailure
    | some data =>
      if data.results.isEmpty then .fail .emptyFailure
      else .request data.raceId (data.results.map entryOf)

/-- Post-`fetch` phase of `syncResults()`: on `response.ok` call
`clearResults()` and report success; otherwise the thrown error lands
in the `catch` block, which leaves the queue untouched and reports
failure. -/
def syncPhase2 (ok : Bool) (queue : Option LocalQueue) :
    SyncOutcome × Option LocalQueue :=
  if ok then (.syncSuccess, clearResults queue) else (.httpFailure, queue)

/-- `response.ok`: HTTP status in the 200–299 range. -/
def httpOk (status : Nat) : Bool := 200 ≤ status && status < 300

/-- Everything observable about one `syncResults()` call: its outcome,
whether a network request was issued, and the final local queue and
server state. -/
structure SyncRun where
  outcome : SyncOutcome
  fetched : Bool
  queue : Option LocalQueue
  db : ServerDb
deriving DecidableEq

/-- One complete `syncResults()` call against the server of
`server.js`, with no interference between its two phases. `delivered`
is the transport: when false the fetch rejects and the request never
reaches the server (the `catch` block reports failure and the queue is
untouched). -/
def syncResults (isOnline : Bool) (delivered : Bool) (deviceId : String)
    (now : Int) (queue : Option LocalQueue) (db : ServerDb) : SyncRun :=
  match syncPhase1 isOnline queue with
  | .fail o => ⟨o, false, queue, db⟩
  | .request raceId entries =>
    if delivered then
      let r := postResults raceId (some entries) (some deviceId) now db
      let p := syncPhase2 (httpOk r.1) queue
      ⟨p.1, true, p.2, r.2⟩
    else
      ⟨.transportFailure, true, queue, db⟩

/-- Two overlapping `syncResults()` calls, in the schedule the missing
re-entrancy guard permits: call B starts (and reads the still-uncleared
queue) while call A's upload is in flight, so both phase-1 reads happen
before either phase 2 runs; the server then processes the two uploads in
arrival order. Returns the final local queue and server state. -/
def overlappingSync (deviceId : String) (now1 now2 : Int)
    (queue0 : Option LocalQueue) (db0 : ServerDb) :
    Option LocalQueue × ServerDb :=
  match syncPhase1 true queue0, syncPhase1 true queue0 with
  | .request rid1 e1, .request rid2 e2 =>
    let r1 := postResults rid1 (some e1) (some deviceId) now1 db0
    let r2 := postResults rid2 (some e2) (some deviceId) now2 r1.2
    let p1 := syncPhase2 (httpOk r1.1) queue0
    let p2 := syncPhase2 (httpOk r2.1) p1.2
    (p2.2, r2.2)
  | _, _ => (queue0, db0)

/-! ## Cache manager (`public/sw.js`) -/

/-- Character-list test: `s` starts with `pat`
(JavaScript `String.prototype.startsWith`). -/
def charsStartWith : List Char → List Char → Bool
  | _, [] => true
  | [], _ :: _ => false
  | c :: cs, p :: ps => c == p && charsStartWith cs ps

/-- Character-list test: `pat` occurs somewhere in `s`
(JavaScript `String.prototype.includes`). -/
def charsContain : List Char → List Char → Bool
  | [], pat => pat.isEmpty
  | c :: tail, pat => charsStartWith (c :: tail) pat || charsContain tail pat

/-- `s.startsWith(pat)` on strings. -/
def strStartsWith (s pat : String) : Bool :=
  charsStartWith s.toList pat.toList

/-- `s.includes(pat)` on strings. -/
def strContains (s pat : String) : Bool :=
  charsContain s.toList pat.toList

/-- Request methods the application issues. The handler only branches on
GET versus everything else. -/
inductive Method
  | GET
  | POST
  | PUT
  | DELETE
deriving DecidableEq

/-- An intercepted request: its method and full URL. -/
structure SwRequest where
  method : Method
  url : String
deriving DecidableEq

/-- A response as the cache manager sees it: HTTP status, whether its
JSON body carries the structured `offline: true` flag, whether its type
is `basic` (same-origin), and its body. -/
structure SwResponse where
  status : Nat
  offline : Bool
  basic : Bool
  body : String
deriving DecidableEq

/-- The synthetic response the fetch handler builds for a failed
non-GET API request: status 503 with `{ error, offline: true }`. -/
def offlineResponse : SwResponse :=
  { status := 503, offline := true, basic := true,
    body := "You are currently offline" }

/-- `event.request.url.startsWith(self.location.origin)`. -/
def isSameOrigin (origin : String) (req : SwRequest) : Bool :=
  strStartsWith req.url origin

/-- `event.request.url.includes('/api/')`. -/
def isApiRequest (req : SwRequest) : Bool :=
  strContains req.url "/api/"

/-- `caches.match(request)` within one cache: the entry stored for that
exact request, if any. -/
def cacheMatch (req : SwRequest) (cache : List (SwRequest × SwResponse)) :
    Option SwResponse :=
  (cache.find? (fun e => e.1 == req)).map (fun e => e.2)

/-- What the fetch handler does with an intercepted request. -/
inductive FetchOutcome
  | notIntercepted
  | respond (r : SwResponse)
  | respondAbsent
  | networkError
deriving DecidableEq

/-- The `fetch` event handler of `sw.js`. `network` is the outcome of
`fetch(event.request)`: `some resp` when the promise resolves (any
status), `none` when it rejects (transport failure). Cross-origin
requests are not intercepted. API requests are network-first: a
resolved response is returned unmodified and never cached; on rejection
a GET falls back to `caches.match` (which may find nothing —
`respondAbsent`), and any other method gets the synthetic 503 offline
response. Static assets are cache-first; a fetched same-origin 200
response is cloned into the cache. Returns the outcome and the cache
contents afterwards. -/
def handleFetch (origin : String) (req : SwRequest)
    (network : Option SwResponse)
    (cache : List (SwRequest × SwResponse)) :
    FetchOutcome × List (SwRequest × SwResponse) :=
  if !(isSameOrigin origin req) then (.notIntercepted, cache)
  else if isApiRequest req then
    match network with
    | some resp => (.respond resp, cache)
    | none =>
      if req.method == .GET then
        match cacheMatch req cache with
        | some r => (.respond r, cache)
        | none => (.respondAbsent, cache)
      else (.respond offlineResponse, cache)
  else
    match cacheMatch req cache with
    | some r => (.respond r, cache)
    | none =>
      match network with
      | some resp =>
        if resp.status == 200 && resp.basic then
          (.respond resp, cache ++ [(req, resp)])
        else (.respond resp, cache)
      | none => (.networkError, cache)

/-- The current cache generation's name, version tag included. -/
def CACHE_NAME : String := "race-control-v1"

/-- The `activate` handler: enumerate the cache names, and delete every
cache whose name differs from `CACHE_NAME`; only caches whose name is
not in the deleted set remain. -/
def activateHandler (cacheStorage : List (String × List (SwRequest × SwResponse))) :
    List (String × List (SwRequest × SwResponse)) :=
  cacheStorage.filter (fun c => !(c.1 != CACHE_NAME))

/-- Retrieval of an entry from a named cache in cache storage:
`caches.open(name)` followed by a match for the request. -/
def cacheStorageMatch
    (cacheStorage : List (String × List (SwRequest × SwResponse)))
    (name : String) (req : SwRequest) : Option SwResponse :=
  match cacheStorage.find? (fun c => c.1 == name) with
  | none => none
  | some c => cacheMatch req c.2

/-! ## Theorems -/

/-- Claim C1, counterexample: the start handler never inspects the
current status, so a single start request addressed to a completed race
(startTime already 100) moves its status backward to `active` and
reassigns its startTime — refuting the claim that the observed status
sequence never regresses and that startTime is assigned exactly once. -/
theorem start_on_completed_regresses :
    statusRank (applyReq (.startReq 200)
      { id := 1, name := "5K Fun Run", date := "2024-05-01",
        startTime := some 100, status := .completed }).status <
      statusRank Status.completed ∧
    (applyReq (.startReq 200)
      { id := 1, name := "5K Fun Run", date := "2024-05-01",
        startTime := some 100, status := .completed }).startTime ≠ some 100 := by
  decide

theorem applyReq_status_ne_pending (op : RaceOp) (r : RaceRow) :
    (applyReq op r).status ≠ .pending := by
  cases op <;> simp [applyReq]

theorem countStarts_eq_zero :
    ∀ (ops : List RaceOp) (r : RaceRow), guarded r ops = true →
      r.status ≠ .pending → countStarts ops = 0 := by
  intro ops
  induction ops with
  | nil => intro r _ _; rfl
  | cons op rest ih =>
    intro r h hr
    simp only [guarded, Bool.and_eq_true] at h
    cases op with
    | startReq n =>
      exact absurd (by simpa [reqGuard] using h.1) hr
    | endReq =>
      simpa [countStarts] using ih _ h.2 (applyReq_status_ne_pending _ _)

theorem countStarts_le_one :
    ∀ (ops : List RaceOp) (r : RaceRow), guarded r ops = true →
      countStarts ops ≤ 1 := by
  intro ops
  induction ops with
  | nil => intro r _; simp [countStarts]
  | cons op rest ih =>
    intro r h
    simp only [guarded, Bool.and_eq_true] at h
    cases op with
    | startReq n =>
      have hz : countStarts rest = 0 :=
        countStarts_eq_zero rest _ h.2 (applyReq_status_ne_pending _ _)
      simp [countStarts, hz]
    | endReq =>
      simpa [countStarts] using ih _ h.2

theorem raceTrace_head (x : RaceRow) (l : List RaceOp) :
    ∃ t, raceTrace x l = x :: t := by
  cases l <;> exact ⟨_, rfl⟩

theorem chain_monoStep :
    ∀ (ops : List RaceOp) (r : RaceRow), guarded r ops = true →
      List.Chain' monoStep (raceTrace r ops) := by
  intro ops
  induction ops with
  | nil => intro r _; simp [raceTrace]
  | cons op rest ih =>
    intro r h
    simp only [guarded, Bool.and_eq_true] at h
    obtain ⟨t, ht⟩ := raceTrace_head (applyReq op r) rest
    have hchain : List.Chain' monoStep (applyReq op r :: t) := ht ▸ ih _ h.2
    have hstep : monoStep r (applyReq op r) := by
      cases op with
      | startReq n =>
        have hp : r.status = .pending := by simpa [reqGuard] using h.1
        refine ⟨?_, fun _ => ⟨hp, by simp [applyReq]⟩⟩
        simp [applyReq, hp, statusRank]
      | endReq =>
        refine ⟨?_, fun hne => absurd (show r.startTime = (applyReq .endReq r).startTime from by
          simp [applyReq]) hne⟩
        have hb : (applyReq .endReq r).status = .completed := rfl
        rw [hb]
        cases hr : r.status <;> simp [hr, statusRank]
    show List.Chain' monoStep (raceTrace r (op :: rest))
    simp only [raceTrace]
    rw [ht]
    exact List.chain'_cons.mpr ⟨hstep, hchain⟩

/-- Claim C1, amended: provided every start request is issued while the
race is pending (the discipline the client UI enforces by disabling the
start control otherwise), the observed sequence of row states has a
nondecreasing status rank, every change of startTime is a
pending-to-active transition, and at most one start request — hence at
most one startTime assignment — occurs. Without the proviso the start
handler unconditionally reactivates the race and reassigns startTime
(see the counterexample). -/
theorem guarded_trace_monotone (r : RaceRow) (ops : List RaceOp)
    (h : guarded r ops = true) :
    List.Chain' monoStep (raceTrace r ops) ∧ countStarts ops ≤ 1 :=
  ⟨chain_monoStep ops r h, countStarts_le_one ops r h⟩

/-- Witness for the amended claim C1 at a concrete guarded request
sequence: start a pending race, then end it. -/
theorem guarded_trace_monotone_witness :
    guarded
      { id := 1, name := "5K Fun Run", date := "2024-05-01",
        startTime := none, status := .pending }
      [.startReq 100, .endReq] = true ∧
    (List.Chain' monoStep (raceTrace
      { id := 1, name := "5K Fun Run", date := "2024-05-01",
        startTime := none, status := .pending }
      [.startReq 100, .endReq]) ∧
     countStarts [.startReq 100, .endReq] ≤ 1) :=
  ⟨by decide, guarded_trace_monotone _ _ (by decide)⟩

/-- Claim C2: the batch insert is not atomic. On the failing input —
a batch whose first entry is valid and whose second lacks `finishTime`
— the handler responds 400 after the first entry's INSERT has already
executed inside a transaction that is neither committed nor rolled
back; a results reader on the server's shared connection then observes
the partially applied batch (runner 7), which it did not observe
before the call. -/
theorem postResults_midBatch_rows_visible :
    postResults 1 (some [⟨some 7, some 100⟩, ⟨some 2, none⟩]) (some "dev") 50
        ⟨[], [], none⟩ =
      (400, ⟨[], [], some [⟨1, 7, 100, some "dev", 50⟩]⟩) ∧
    (getResults 1 ⟨[], [], some [⟨1, 7, 100, some "dev", 50⟩]⟩).2 =
      [⟨7, 100, none, some "dev", 50⟩] ∧
    (getResults 1 (⟨[], [], none⟩ : ServerDb)).2 = [] := by
  exact ⟨rfl, rfl, rfl⟩

/-- Claim C4: the source has no re-entrancy guard, so in the schedule
where a second `syncResults()` call reads the queue while the first
call's upload is still in flight, the single queued finish (runner 7)
is uploaded twice and the server commits it twice — the duplicate-upload
race the claim requires to be impossible. -/
theorem overlappingSync_uploads_batch_twice :
    (overlappingSync "dev" 5 6 (some ⟨1, [⟨1, 7, 100⟩]⟩) ⟨[], [], none⟩).2.committed =
      [⟨1, 7, 100, some "dev", 5⟩, ⟨1, 7, 100, some "dev", 6⟩] ∧
    (overlappingSync "dev" 5 6 (some ⟨1, [⟨1, 7, 100⟩]⟩) ⟨[], [], none⟩).1 = none := by
  exact ⟨rfl, rfl⟩

theorem insertLoop_all_valid (raceId : Nat) (dev : Option String) (now : Int) :
    ∀ (entries : List Entry) (acc : List ResultRow),
      entries.all validEntry = true →
      insertLoop raceId dev now entries acc =
        (acc ++ entries.map (entryRow raceId dev now), false) := by
  intro entries
  induction entries with
  | nil => intro acc _; simp [insertLoop]
  | cons e rest ih =>
    intro acc h
    simp only [List.all_cons, Bool.and_eq_true] at h
    simp [insertLoop, h.1, ih _ h.2]

theorem insertLoop_has_invalid (raceId : Nat) (dev : Option String) (now : Int) :
    ∀ (entries : List Entry) (acc : List ResultRow),
      entries.all validEntry = false →
      (insertLoop raceId dev now entries acc).2 = true := by
  intro entries
  induction entries with
  | nil => intro acc h; simp at h
  | cons e rest ih =>
    intro acc h
    simp only [List.all_cons, Bool.and_eq_false_iff] at h
    by_cases hv : validEntry e = true
    · have hrest : rest.all validEntry = false := by
        rcases h with h | h
        · exact absurd hv (by simp [h])
        · exact h
      simp [insertLoop, hv, ih _ hrest]
    · simp [insertLoop, hv]

theorem postResults_all_valid (raceId : Nat) (entries : List Entry)
    (dev : Option String) (now : Int) (db : ServerDb)
    (h : entries.all validEntry = true) :
    postResults raceId (some entries) dev now db =
      (200, { db with
        committed := db.committed ++ entries.map (entryRow raceId dev now),
        pendingTxn := none }) := by
  simp [postResults, insertLoop_all_valid raceId dev now entries [] h]

theorem postResults_has_invalid (raceId : Nat) (entries : List Entry)
    (dev : Option String) (now : Int) (db : ServerDb)
    (h : entries.all validEntry = false) :
    (postResults raceId (some entries) dev now db).1 = 400 ∧
    (postResults raceId (some entries) dev now db).2.committed = db.committed := by
  have hflag := insertLoop_has_invalid raceId dev now entries [] h
  simp [postResults, hflag]

theorem map_entryRow_entryOf (raceId : Nat) (dev : String) (now : Int)
    (l : List StoredResult) :
    (l.map entryOf).map (entryRow raceId (some dev) now) =
      l.map (storedRow raceId dev now) := by
  induction l with
  | nil => rfl
  | cons hd tl ih =>
    simp only [List.map_cons]
    rw [ih]
    rfl

/-- Claim C3: for every queue state and server state (on a connection
with no dangling transaction), a `syncResults()` call that does not
succeed leaves the persisted local queue exactly as it was, and a
succeeding call clears the queue entirely while the server's committed
results grow by exactly the previously queued batch, one row per queued
result, in order — no duplicates, no omissions. -/
theorem syncResults_atomic (isOnline delivered : Bool) (dev : String) (now : Int)
    (queue : Option LocalQueue) (db : ServerDb)
    (hclean : db.pendingTxn = none) :
    ((syncResults isOnline delivered dev now queue db).outcome ≠ .syncSuccess →
      (syncResults isOnline delivered dev now queue db).queue = queue) ∧
    ((syncResults isOnline delivered dev now queue db).outcome = .syncSuccess →
      (syncResults isOnline delivered dev now queue db).queue = none ∧
      ∃ data, queue = some data ∧
        (syncResults isOnline delivered dev now queue db).db.committed =
          db.committed ++ data.results.map (storedRow data.raceId dev now) ∧
        (syncResults isOnline delivered dev now queue db).db.pendingTxn = none) := by
  cases isOnline with
  | false =>
    refine ⟨fun _ => ?_, fun hs => absurd hs ?_⟩ <;> simp [syncResults, syncPhase1]
  | true =>
    cases queue with
    | none =>
      refine ⟨fun _ => ?_, fun hs => absurd hs ?_⟩ <;> simp [syncResults, syncPhase1]
    | some data =>
      cases hemp : data.results.isEmpty with
      | true =>
        refine ⟨fun _ => ?_, fun hs => absurd hs ?_⟩ <;>
          simp [syncResults, syncPhase1, hemp]
      | false =>
        cases delivered with
        | false =>
          refine ⟨fun _ => ?_, fun hs => absurd hs ?_⟩ <;>
            simp [syncResults, syncPhase1, hemp]
        | true =>
          cases hval : (data.results.map entryOf).all validEntry with
          | true =>
            have hpost := postResults_all_valid data.raceId
              (data.results.map entryOf) (some dev) now db hval
            constructor
            · intro hne
              exfalso
              apply hne
              simp [syncResults, syncPhase1, hemp, hpost, httpOk, syncPhase2]
            · intro _
              refine ⟨?_, data, rfl, ?_, ?_⟩ <;>
                simp [syncResults, syncPhase1, hemp, hpost, httpOk, syncPhase2,
                  clearResults, map_entryRow_entryOf]
              intro a _
              rfl
          | false =>
            have hpost := postResults_has_invalid data.raceId
              (data.results.map entryOf) (some dev) now db hval
            constructor
            · intro _
              rcases hp : postResults data.raceId
                  (some (data.results.map entryOf)) (some dev) now db with ⟨st, db2⟩
              have hst : st = 400 := by rw [hp] at hpost; exact hpost.1
              subst hst
              simp [syncResults, syncPhase1, hemp, hp, httpOk, syncPhase2]
            · intro hs
              exfalso
              rcases hp : postResults data.raceId
                  (some (data.results.map entryOf)) (some dev) now db with ⟨st, db2⟩
              have hst : st = 400 := by rw [hp] at hpost; exact hpost.1
              subst hst
              simp [syncResults, syncPhase1, hemp, hp, httpOk, syncPhase2] at hs

/-- Witness for claim C3 at a concrete succeeding call: online,
transport delivers, one queued finish for race 1, empty server store;
the queue is cleared and the server commits exactly that row. -/
theorem syncResults_atomic_witness :
    (⟨[], [], none⟩ : ServerDb).pendingTxn = none ∧
    (((syncResults true true "dev" 9 (some ⟨1, [⟨1, 7, 100⟩]⟩) ⟨[], [], none⟩).outcome ≠
        .syncSuccess →
      (syncResults true true "dev" 9 (some ⟨1, [⟨1, 7, 100⟩]⟩) ⟨[], [], none⟩).queue =
        some ⟨1, [⟨1, 7, 100⟩]⟩) ∧
     ((syncResults true true "dev" 9 (some ⟨1, [⟨1, 7, 100⟩]⟩) ⟨[], [], none⟩).outcome =
        .syncSuccess →
      (syncResults true true "dev" 9 (some ⟨1, [⟨1, 7, 100⟩]⟩) ⟨[], [], none⟩).queue = none ∧
      ∃ data, (some ⟨1, [⟨1, 7, 100⟩]⟩ : Option LocalQueue) = some data ∧
        (syncResults true true "dev" 9 (some ⟨1, [⟨1, 7, 100⟩]⟩) ⟨[], [], none⟩).db.committed =
          (⟨[], [], none⟩ : ServerDb).committed ++
            data.results.map (storedRow data.raceId "dev" 9) ∧
        (syncResults true true "dev" 9 (some ⟨1, [⟨1, 7, 100⟩]⟩) ⟨[], [], none⟩).db.pendingTxn =
          none)) :=
  ⟨rfl, syncResults_atomic true true "dev" 9 (some ⟨1, [⟨1, 7, 100⟩]⟩) ⟨[], [], none⟩ rfl⟩

/-- Claim C5: storing a result for race B while the persisted record
holds race A (A ≠ B) replaces the record with a fresh one containing
only the new result, and afterwards every entry of the record carries
the record's raceId. -/
theorem storeResult_replaces_record (rec : LocalQueue) (r : StoredResult)
    (h : rec.raceId ≠ r.raceId) :
    storeResult r (some rec) = some { raceId := r.raceId, results := [r] } ∧
    ∀ q : LocalQueue, storeResult r (some rec) = some q →
      ∀ e ∈ q.results, e.raceId = q.raceId := by
  have hb : (rec.raceId != r.raceId) = true := by simpa [bne_iff_ne] using h
  have h1 : storeResult r (some rec) = some { raceId := r.raceId, results := [r] } := by
    simp [storeResult, hb]
  refine ⟨h1, ?_⟩
  intro q hq e he
  rw [h1] at hq
  injection hq with hq
  subst hq
  simp only [List.mem_singleton] at he
  subst he
  rfl

/-- Witness for claim C5: the queue holds a finish for race 1; storing
a finish for race 2 discards it and leaves only the new entry. -/
theorem storeResult_replaces_record_witness :
    ((⟨1, [⟨1, 5, 10⟩]⟩ : LocalQueue).raceId ≠ (⟨2, 6, 20⟩ : StoredResult).raceId) ∧
    storeResult ⟨2, 6, 20⟩ (some ⟨1, [⟨1, 5, 10⟩]⟩) = some ⟨2, [⟨2, 6, 20⟩]⟩ :=
  ⟨by decide, (storeResult_replaces_record ⟨1, [⟨1, 5, 10⟩]⟩ ⟨2, 6, 20⟩ (by decide)).1⟩

/-- Claim C6: `start()` is idempotent — on a running timer it returns
the existing startTime and changes nothing, for every argument; and for
every state, a second `start()` with no intervening `stop()`/`reset()`
returns the same startTime the first call returned and changes
nothing. -/
theorem timer_start_idempotent (s : TimerState) (now : Int) (arg : Option Int) :
    (s.isRunning = true → RaceTimer.start now arg s = (s.startTime, s)) ∧
    (∀ (now2 : Int) (arg2 : Option Int),
      RaceTimer.start now2 arg2 (RaceTimer.start now arg s).2 =
        ((RaceTimer.start now arg s).1, (RaceTimer.start now arg s).2)) := by
  constructor
  · intro h
    simp [RaceTimer.start, h]
  · intro now2 arg2
    by_cases h : s.isRunning = true
    · simp [RaceTimer.start, h]
    · simp only [Bool.not_eq_true] at h
      simp [RaceTimer.start, h]

/-- Witness for claim C6 on a concrete running timer: both clauses at
startTime 42, with a second call passing a different argument. -/
theorem timer_start_idempotent_witness :
    (({ startTime := some 42, isRunning := true, intervalActive := true } :
        TimerState).isRunning = true) ∧
    RaceTimer.start 5 none
        { startTime := some 42, isRunning := true, intervalActive := true } =
      (some 42, { startTime := some 42, isRunning := true, intervalActive := true }) ∧
    RaceTimer.start 6 (some 9)
        (RaceTimer.start 5 none
          { startTime := some 42, isRunning := true, intervalActive := true }).2 =
      ((RaceTimer.start 5 none
          { startTime := some 42, isRunning := true, intervalActive := true }).1,
       (RaceTimer.start 5 none
          { startTime := some 42, isRunning := true, intervalActive := true }).2) :=
  ⟨rfl,
   (timer_start_idempotent _ 5 none).1 rfl,
   (timer_start_idempotent _ 5 none).2 6 (some 9)⟩

/-- Claim C7: offline, `syncResults()` fails on the offline branch (the
spec's OfflineError) with no network call and both stores unchanged;
online with an empty queue it fails on the empty branch (the spec's
EmptyBatchError) as a complete no-op. The two failure branches are
observably distinct (`notificationOf`). -/
theorem syncResults_preconditions (delivered : Bool) (dev : String) (now : Int)
    (queue : Option LocalQueue) (db : ServerDb) :
    syncResults false delivered dev now queue db =
      ⟨.offlineFailure, false, queue, db⟩ ∧
    (queueEmpty queue = true →
      syncResults true delivered dev now queue db =
        ⟨.emptyFailure, false, queue, db⟩) := by
  constructor
  · simp [syncResults, syncPhase1]
  · intro h
    cases queue with
    | none => simp [syncResults, syncPhase1]
    | some d =>
      have hd : d.results.isEmpty = true := by simpa [queueEmpty] using h
      simp [syncResults, syncPhase1, hd]

/-- Witness for claim C7: the offline clause with a nonempty queue, and
the empty-queue clause with no stored record. -/
theorem syncResults_preconditions_witness :
    syncResults false true "dev" 0 (some ⟨1, [⟨1, 7, 100⟩]⟩) ⟨[], [], none⟩ =
      ⟨.offlineFailure, false, some ⟨1, [⟨1, 7, 100⟩]⟩, ⟨[], [], none⟩⟩ ∧
    queueEmpty none = true ∧
    syncResults true true "dev" 0 none ⟨[], [], none⟩ =
      ⟨.emptyFailure, false, none, ⟨[], [], none⟩⟩ :=
  ⟨(syncResults_preconditions true "dev" 0 (some ⟨1, [⟨1, 7, 100⟩]⟩) ⟨[], [], none⟩).1,
   rfl,
   (syncResults_preconditions true "dev" 0 none ⟨[], [], none⟩).2 rfl⟩

/-- Claim C8: for an intercepted same-origin API request whose network
attempt fails, a GET is answered with whatever the cache holds for that
exact request (possibly nothing), and a POST, PUT or DELETE is answered
with the synthetic offline response: a 5xx status carrying the
structured `offline: true` flag. -/
theorem apiFetch_offline_fallback (origin : String) (req : SwRequest)
    (cache : List (SwRequest × SwResponse))
    (hso : isSameOrigin origin req = true) (hapi : isApiRequest req = true) :
    (req.method = .GET →
      (handleFetch origin req none cache).1 =
        (match cacheMatch req cache with
         | some r => .respond r
         | none => .respondAbsent)) ∧
    ((req.method = .POST ∨ req.method = .PUT ∨ req.method = .DELETE) →
      (handleFetch origin req none cache).1 = .respond offlineResponse ∧
      offlineResponse.offline = true ∧
      500 ≤ offlineResponse.status ∧ offlineResponse.status < 600) := by
  constructor
  · intro hm
    cases hcm : cacheMatch req cache <;>
      simp [handleFetch, hso, hapi, hm, hcm]
  · intro hm
    refine ⟨?_, rfl, by decide, by decide⟩
    rcases hm with hm | hm | hm <;> simp [handleFetch, hso, hapi, hm]

/-- Witness for claim C8: a POST to the results endpoint whose network
attempt fails gets the synthetic offline response. -/
theorem apiFetch_offline_fallback_witness :
    isSameOrigin "http://x" ⟨.POST, "http://x/api/races/1/results"⟩ = true ∧
    isApiRequest ⟨.POST, "http://x/api/races/1/results"⟩ = true ∧
    (handleFetch "http://x" ⟨.POST, "http://x/api/races/1/results"⟩ none []).1 =
      .respond offlineResponse :=
  ⟨by decide, by decide,
   ((apiFetch_offline_fallback "http://x" ⟨.POST, "http://x/api/races/1/results"⟩ []
      (by decide) (by decide)).2 (Or.inl rfl)).1⟩

/-- Claim C9: after the activate handler runs, every cache whose name
differs from the current `CACHE_NAME` has been deleted, so no entry of
any prior cache generation is retrievable through it. -/
theorem activate_deletes_stale_caches
    (cs : List (String × List (SwRequest × SwResponse))) (name : String)
    (req : SwRequest) (h : name ≠ CACHE_NAME) :
    cacheStorageMatch (activateHandler cs) name req = none := by
  have hfind : (activateHandler cs).find? (fun c => c.1 == name) = none := by
    rw [List.find?_eq_none]
    intro x hx
    have hmem := List.mem_filter.mp hx
    have hname : x.1 = CACHE_NAME := by simpa using hmem.2
    simp [hname, beq_iff_eq]
    exact fun hh => h hh.symm
  simp [cacheStorageMatch, hfind]

/-- Witness for claim C9: an entry cached in the previous generation
`race-control-v0` is gone after activation. -/
theorem activate_deletes_stale_caches_witness :
    ("race-control-v0" ≠ CACHE_NAME) ∧
    cacheStorageMatch
      (activateHandler
        [("race-control-v0", [(⟨.GET, "/index.html"⟩, ⟨200, false, true, "shell"⟩)]),
         (CACHE_NAME, [])])
      "race-control-v0" ⟨.GET, "/index.html"⟩ = none :=
  ⟨by decide,
   activate_deletes_stale_caches
     [("race-control-v0", [(⟨.GET, "/index.html"⟩, ⟨200, false, true, "shell"⟩)]),
      (CACHE_NAME, [])]
     "race-control-v0" ⟨.GET, "/index.html"⟩ (by decide)⟩

/-- Claim C10, counterexample: the results-submission handler never
checks that the race exists, so posting a valid result for the absent
race id 5 succeeds (200) and leaves the races table still without a
row for id 5; the results reader then answers 200 with a nonempty
list for that absent race — refuting "returns 200 with an empty
list" as universally stated. (Its raceTime is null, as the race's
startTime is absent.) -/
theorem getResults_nonempty_for_absent_race :
    (postResults 5 (some [⟨some 7, some 100⟩]) (some "dev") 50 ⟨[], [], none⟩).1 = 200 ∧
    (postResults 5 (some [⟨some 7, some 100⟩]) (some "dev") 50 ⟨[], [], none⟩).2.races = [] ∧
    getResults 5
        (postResults 5 (some [⟨some 7, some 100⟩]) (some "dev") 50 ⟨[], [], none⟩).2 =
      (200, [⟨7, 100, none, some "dev", 50⟩]) := by
  exact ⟨rfl, rfl, rfl⟩

/-- Claim C10, amended: the results reader always answers 200 — there
is no 404 path for an absent race; the list is empty when, in addition
to the race row being absent, no results rows exist for that id (rows
for an absent race are possible, since submission does not check race
existence); and every returned row's raceTime is null whenever the
race's startTime is unset or the race row is absent. -/
theorem getResults_no404_null_raceTime (raceId : Nat) (db : ServerDb) :
    (getResults raceId db).1 = 200 ∧
    (raceStartTimeOf raceId db = none →
      ∀ p ∈ (getResults raceId db).2, p.raceTime = none) ∧
    ((db.races.find? (fun r => r.id == raceId) = none ∧
      (visibleResults db).filter (fun r => r.raceId == raceId) = []) →
      (getResults raceId db).2 = []) := by
  refine ⟨rfl, ?_, ?_⟩
  · intro h p hp
    simp only [getResults, h] at hp
    obtain ⟨row, _, rfl⟩ := List.mem_map.mp hp
    rfl
  · intro h
    simp [getResults, h.2, sortByFinish]

/-- Witness for the amended claim C10 on the empty database: race 3 is
absent, no results rows exist, and the reader answers 200 with the
empty list. -/
theorem getResults_no404_null_raceTime_witness :
    raceStartTimeOf 3 ⟨[], [], none⟩ = none ∧
    ((⟨[], [], none⟩ : ServerDb).races.find? (fun r => r.id == 3) = none ∧
      (visibleResults ⟨[], [], none⟩).filter (fun r => r.raceId == 3) = []) ∧
    (getResults 3 ⟨[], [], none⟩).1 = 200 ∧
    (getResults 3 ⟨[], [], none⟩).2 = [] :=
  ⟨rfl, ⟨rfl, rfl⟩,
   (getResults_no404_null_raceTime 3 ⟨[], [], none⟩).1,
   (getResults_no404_null_raceTime 3 ⟨[], [], none⟩).2.2 ⟨rfl, rfl⟩⟩

end RaceControl
